/-
Verification of the eco-plc-gw register gateway.

Shallow embedding of `eco-plc-gw.py`:
  * the shared holding-register dictionary `Share.v_hold_regs_d` is modelled as a
    function `Nat → Option Nat` (`none` = the address is not a key of the dict);
  * `MyDataBank.get_holding_registers` is modelled by a left-to-right collection
    over `range(address, address + number)` that aborts at the first missing key
    (the Python `KeyError` → `return None` path);
  * the two polling jobs (`EcogazJob.run`, `EcowattJob.run`) are modelled as pure
    functions from a fetch outcome (network/JSON-decode failure, or a list of raw
    records whose fields may be unparsable or missing) and today's date to a
    transformer of the register table; calendar dates are days encoded as
    integers.  `EcogazJob.run` returns in `Except`, because a record missing an
    expected key raises a `KeyError` that its except tuple does not catch, so
    the exception escapes `run()`; `EcowattJob.run` catches `KeyError` and is
    total;
  * the scheduler skeleton `Job.update` is modelled with rational time stamps,
    `none` standing for the `float('-inf')` used when `runnable_now` is set.
-/
import Mathlib

/-- Initial contents of `Share.v_hold_regs_d` (eco-plc-gw.py line 57):
`{0: 0, 1: 0, 2: 0, 3: 4, 4: 5, 5: 0, 100: 0, 101: 0, 102: 0, 103: 0}`.
`none` means the address is not a key of the dictionary. -/
def v_hold_regs_d_init : Nat → Option Nat := fun a =>
  if a = 0 then some 0
  else if a = 1 then some 0
  else if a = 2 then some 0
  else if a = 3 then some 4
  else if a = 4 then some 5
  else if a = 5 then some 0
  else if a = 100 then some 0
  else if a = 101 then some 0
  else if a = 102 then some 0
  else if a = 103 then some 0
  else none

/-- The list comprehension `[d[a] for a in addrs]` under a `try/except KeyError`:
collect the values at the listed addresses, `none` as soon as one is missing. -/
def regs_list (regs : Nat → Option Nat) : List Nat → Option (List Nat)
  | [] => some []
  | a :: rest =>
    match regs a with
    | none => none
    | some v => (regs_list regs rest).map (v :: ·)

/-- `MyDataBank.get_holding_registers` (eco-plc-gw.py lines 68-76): return the
values at `range(address, address + number)`, or `None` if any register is
missing from the dict. -/
def get_holding_registers (regs : Nat → Option Nat) (address : Nat)
    (number : Nat := 1) : Option (List Nat) :=
  regs_list regs (List.range' address number)

theorem regs_list_eq_none_iff (regs : Nat → Option Nat) (l : List Nat) :
    regs_list regs l = none ↔ ∃ a ∈ l, regs a = none := by
  induction l with
  | nil => simp [regs_list]
  | cons a rest ih =>
    cases h : regs a with
    | none => simp [regs_list, h]
    | some v =>
      simp only [regs_list, h, List.mem_cons]
      constructor
      · intro hmap
        rcases Option.map_eq_none'.mp hmap with hnone
        rcases ih.mp hnone with ⟨b, hb, hbn⟩
        exact ⟨b, Or.inr hb, hbn⟩
      · rintro ⟨b, hb | hb, hbn⟩
        · rw [hb] at hbn; simp [hbn] at h
        · rw [ih.mpr ⟨b, hb, hbn⟩]; rfl

theorem regs_list_eq_some (regs : Nat → Option Nat) (l : List Nat)
    (vs : List Nat) (h : regs_list regs l = some vs) :
    vs.length = l.length ∧ ∀ i (hi : i < l.length), vs.get? i = regs (l.get ⟨i, hi⟩) := by
  induction l generalizing vs with
  | nil =>
    simp only [regs_list, Option.some.injEq] at h
    subst h
    exact ⟨rfl, by intro i hi; simp at hi⟩
  | cons a rest ih =>
    cases ha : regs a with
    | none => simp [regs_list, ha] at h
    | some v =>
      simp only [regs_list, ha] at h
      cases hrest : regs_list regs rest with
      | none => rw [hrest] at h; simp at h
      | some ws =>
        rw [hrest] at h
        simp only [Option.map_some', Option.some.injEq] at h
        subst h
        obtain ⟨hlen, hval⟩ := ih ws hrest
        refine ⟨by simp [hlen], ?_⟩
        intro i hi
        cases i with
        | zero => simp [ha]
        | succ j =>
          simp only [List.length_cons] at hi
          simpa using hval j (by omega)

/-- `Job` skeleton (eco-plc-gw.py lines 80-100).  Time stamps are rationals
(modelling the float seconds of `time.monotonic()`); `_last_run_t = none`
models the `float('-inf')` installed when `runnable_now` is true. -/
structure Job where
  enable : Bool
  every_s : ℚ
  _last_run_t : Option ℚ

/-- `Job.__init__` (eco-plc-gw.py lines 83-88): `_last_run_t` is `-inf` when
`runnable_now` is set, else the current monotonic time. -/
def Job.init (now : ℚ) (every_s : ℚ) (runnable_now : Bool := false)
    (enable : Bool := true) : Job :=
  ⟨enable, every_s, if runnable_now then none else some now⟩

/-- The guard of `Job.update` (line 93):
`self.enable and (time.monotonic() - self._last_run_t) > self.every_s`.
With `_last_run_t = -inf` the subtraction is `+inf`, so the comparison holds. -/
def Job.runnable (j : Job) (now : ℚ) : Bool :=
  j.enable &&
    match j._last_run_t with
    | none => true
    | some t => decide (now - t > j.every_s)

/-- `Job.update` (eco-plc-gw.py lines 90-96): when the guard holds, stamp
`_last_run_t = now` and execute `run` (modelled as the table transformer
`eff`, which covers every concrete job body, fetch failures included). -/
def Job.update (j : Job) (now : ℚ)
    (eff : (Nat → Option Nat) → (Nat → Option Nat))
    (regs : Nat → Option Nat) : Job × (Nat → Option Nat) :=
  if j.runnable now then ({ j with _last_run_t := some now }, eff regs)
  else (j, regs)

/-- The spec-side form of the guard: `now - last_attempt > interval`, read as
always true for `last_attempt = -inf`. -/
def Job.elapsed_gt (j : Job) (now : ℚ) : Prop :=
  match j._last_run_t with
  | none => True
  | some t => now - t > j.every_s

/-- One field of a decoded JSON record, as the parse code sees it:
`val a` — the key is present and its value parses to `a`;
`unparsable` — the key is present but its value does not parse
(`ValueError` from `int(...)` or `dateutil` parse, a subclass of
`ValueError`); `absent` — the key is missing from the record
(`KeyError` on the subscript). -/
inductive RawField (α : Type) where
  | val : α → RawField α
  | unparsable : RawField α
  | absent : RawField α
deriving DecidableEq

/-- One raw record of the decoded ODRE json array (line 126-127): the
`gas_day` and `indice_de_couleur` fields. -/
structure GzRaw where
  gas_day : RawField Int
  indice_de_couleur : RawField Nat
deriving DecidableEq

/-- The parse loop of `EcogazJob.run` (lines 126-127):
`odre_js_d[dt_parse(odre_day_d['gas_day']).date()] = int(odre_day_d['indice_de_couleur'])`.
Python evaluates the right-hand side first, so for each record
`indice_de_couleur` is subscripted (KeyError if absent) and converted
(`ValueError` if unparsable) before `gas_day` is subscripted and parsed.
A `ValueError` is caught by the except tuple at line 130: the loop aborts
and the entries already inserted are kept (`.ok` with the dict so far).
A `KeyError` is NOT in that except tuple: it propagates out of `run()`
(`.error ()`). -/
def gz_parse_loop : List GzRaw → (Int → Option Nat) → Except Unit (Int → Option Nat)
  | [], d => .ok d
  | r :: rest, d =>
    match r.indice_de_couleur with
    | .absent => .error ()
    | .unparsable => .ok d
    | .val v =>
      match r.gas_day with
      | .absent => .error ()
      | .unparsable => .ok d
      | .val day => gz_parse_loop rest (Function.update d day (some v))

/-- The window dict `daily_d` of `EcogazJob.run` (lines 133-137): six
consecutive days starting today, each day's value looked up in the parsed
dict `odre_js_d` with default 0. -/
def ecogaz_daily_d (odre_js_d : Int → Option Nat) (today : Int) :
    List (Int × Nat) :=
  (List.range 6).map fun o =>
    (today + (o : Int), (odre_js_d (today + (o : Int))).getD 0)

/-- The register-write phase of `EcogazJob.run` (lines 132-141): build the
6-day window from the parsed dict, then enumerate the sorted keys of
`daily_d` and write `daily_d.get(date)` to register `d_idx`.  The lookup
always succeeds because `date` ranges over the keys of `daily_d`; `.getD 0`
covers the unreachable `None` branch of Python's `dict.get`. -/
def ecogaz_write (odre_js_d : Int → Option Nat) (today : Int)
    (regs : Nat → Option Nat) : Nat → Option Nat :=
  (((ecogaz_daily_d odre_js_d today).map Prod.fst).mergeSort).enum.foldl
    (fun r p =>
      Function.update r p.1
        (some ((List.lookup p.2 (ecogaz_daily_d odre_js_d today)).getD 0)))
    regs

/-- `EcogazJob.run` (eco-plc-gw.py lines 117-141).  `today` is today's date in
the Europe/Paris zone, as a day number.  `fetch` is the outcome of the HTTP
request plus JSON decode: `Except.error ()` models `URLError` or
`json.decoder.JSONDecodeError`, both caught at lines 128-131, so the run
proceeds to the write phase with an empty dict.  With decoded records the
parse loop runs; a `KeyError` there is uncaught, so the whole `run()` raises
(result `.error ()`) and no register is written; otherwise the write phase
runs on the parsed dict. -/
def EcogazJob.run (fetch : Except Unit (List GzRaw)) (today : Int)
    (regs : Nat → Option Nat) : Except Unit (Nat → Option Nat) :=
  match fetch with
  | .error _ => .ok (ecogaz_write (fun _ => none) today regs)
  | .ok raws =>
    match gz_parse_loop raws (fun _ => none) with
    | .error e => .error e
    | .ok d => .ok (ecogaz_write d today regs)

/-- One raw record of the RTE `signals` array (lines 168-170): fields `jour`,
`dvalue`, `message`; `none` models a missing or unparsable field
(`KeyError` / `ValueError`, both caught at line 173). -/
structure EwRaw where
  jour : Option Int
  dvalue : Option Nat
  message : Option String

/-- One parsed entry of `fmt_js_d`: `dict(value=..., message=...)` (line 169). -/
structure EwEntry where
  value : Nat
  message : String

/-- The parse loop of `EcowattJob.run` (lines 168-170), with the same
keep-entries-before-the-failure behaviour as the ecogaz loop. -/
def buildEwDict : List EwRaw → (Int → Option EwEntry) → (Int → Option EwEntry)
  | [], d => d
  | r :: rest, d =>
    match r.jour, r.dvalue, r.message with
    | some day, some v, some msg => buildEwDict rest (Function.update d day (some ⟨v, msg⟩))
    | _, _, _ => d

/-- The dict `fmt_js_d` at the end of the try/except of `EcowattJob.run`
(lines 152-174).  `Except.error ()` models any failure of the token handshake
or signal request (`URLError`, `JSONDecodeError`, a `KeyError` on
`access_token` or `signals`): the dict stays empty. -/
def ecowatt_fmt_js_d (fetch : Except Unit (List EwRaw)) : Int → Option EwEntry :=
  match fetch with
  | .error _ => fun _ => none
  | .ok raw => buildEwDict raw fun _ => none

/-- The window dict `daily_d` of `EcowattJob.run` (lines 176-180): four
consecutive days starting today, default `dict(value=0, message='')`. -/
def ecowatt_daily_d (fetch : Except Unit (List EwRaw)) (today : Int) :
    List (Int × EwEntry) :=
  (List.range 4).map fun o =>
    (today + (o : Int), (ecowatt_fmt_js_d fetch (today + (o : Int))).getD ⟨0, ""⟩)

/-- `EcowattJob.run` (eco-plc-gw.py lines 150-184).  Registers `100 + d_idx`
receive `daily_d[date]['value']` (line 184); the lookup always succeeds
because `date` ranges over the keys of `daily_d`. -/
def EcowattJob.run (fetch : Except Unit (List EwRaw))
    (today : Int) (regs : Nat → Option Nat) : Nat → Option Nat :=
  (((ecowatt_daily_d fetch today).map Prod.fst).mergeSort).enum.foldl
    (fun r p =>
      Function.update r (100 + p.1)
        (some ((List.lookup p.2 (ecowatt_daily_d fetch today)).getD ⟨0, ""⟩).value))
    regs

theorem lookup_window {β : Type} (f : Int → β) :
    ∀ (n : Nat) (t : Int) (i : Nat), i < n →
      List.lookup (t + (i : Int))
        ((List.range n).map fun o : Nat => (t + (o : Int), f (t + (o : Int)))) =
        some (f (t + (i : Int))) := by
  intro n
  induction n with
  | zero => intro t i h; omega
  | succ n ih =>
    intro t i h
    rw [List.range_succ_eq_map, List.map_cons, List.map_map]
    have hmap : (List.range n).map
          ((fun o : Nat => (t + (o : Int), f (t + (o : Int)))) ∘ Nat.succ)
        = (List.range n).map fun o : Nat => ((t + 1) + (o : Int), f ((t + 1) + (o : Int))) := by
      apply List.map_congr_left
      intro b _
      simp only [Function.comp_apply]
      rw [show t + ((Nat.succ b : Nat) : Int) = (t + 1) + (b : Int) by push_cast; ring]
    rw [hmap]
    cases i with
    | zero => simp [List.lookup]
    | succ j =>
      have hne : ((t + ((Nat.succ j : Nat) : Int)) == (t + ((0 : Nat) : Int))) = false := by
        rw [beq_eq_false_iff_ne]
        push_cast
        omega
      simp only [List.lookup, hne]
      rw [show t + ((Nat.succ j : Nat) : Int) = (t + 1) + (j : Int) by push_cast; ring]
      exact ih (t + 1) j (by omega)

theorem window_keys_sorted (t : Int) (n : Nat) :
    List.Sorted (· ≤ ·) ((List.range n).map fun o : Nat => t + (o : Int)) := by
  rw [List.Sorted, List.pairwise_map]
  exact (List.pairwise_lt_range n).imp fun h => add_le_add_left (Nat.cast_le.mpr h.le) t

theorem enum_map_range {β : Type} (g : Nat → β) (n : Nat) :
    ((List.range n).map g).enum = (List.range n).map fun i => (i, g i) := by
  rw [List.enum_eq_enumFrom, List.enumFrom_eq_zip_range']
  rw [List.length_map, List.length_range, ← List.range_eq_range']
  nth_rewrite 1 [show List.range n = (List.range n).map id from (List.map_id _).symm]
  rw [List.zip_map']
  rfl

theorem foldl_update_range_eval (val : Nat → Option Nat) (base : Nat) :
    ∀ (n : Nat) (regs : Nat → Option Nat) (a : Nat),
      (List.range n).foldl (fun r i => Function.update r (base + i) (val i)) regs a
        = if base ≤ a ∧ a < base + n then val (a - base) else regs a := by
  intro n
  induction n with
  | zero =>
    intro regs a
    rw [List.range_zero, List.foldl_nil, if_neg (by omega)]
  | succ n ih =>
    intro regs a
    rw [List.range_succ, List.foldl_append, List.foldl_cons, List.foldl_nil]
    rw [Function.update_apply]
    by_cases h : a = base + n
    · rw [if_pos h, if_pos (by omega)]
      subst h
      congr 1
      omega
    · rw [if_neg h, ih]
      by_cases h2 : base ≤ a ∧ a < base + n
      · rw [if_pos h2, if_pos (by omega)]
      · rw [if_neg h2, if_neg (by omega)]

theorem foldl_update_range_eval0 (val : Nat → Option Nat) (n : Nat)
    (regs : Nat → Option Nat) (a : Nat) :
    (List.range n).foldl (fun r i => Function.update r i (val i)) regs a
      = if a < n then val a else regs a := by
  have h := foldl_update_range_eval val 0 n regs a
  simp only [Nat.zero_add, Nat.sub_zero] at h
  rw [h]
  by_cases ha : a < n
  · rw [if_pos ⟨Nat.zero_le a, ha⟩, if_pos ha]
  · rw [if_neg (by omega), if_neg ha]

/-- Pointwise description of the ecogaz write phase: registers `0..5` receive
the parsed value for `today + offset` (default 0), all other registers keep
their previous binding. -/
theorem ecogaz_write_eval (odre : Int → Option Nat)
    (t : Int) (regs : Nat → Option Nat) (a : Nat) :
    ecogaz_write odre t regs a
      = if a < 6 then some ((odre (t + (a : Int))).getD 0)
        else regs a := by
  have hkeys : (ecogaz_daily_d odre t).map Prod.fst
      = (List.range 6).map fun o : Nat => t + (o : Int) := by
    unfold ecogaz_daily_d
    rw [List.map_map]
    rfl
  have h0 : ecogaz_write odre t regs a
      = if a < 6
        then some ((List.lookup (t + (a : Int)) (ecogaz_daily_d odre t)).getD 0)
        else regs a := by
    unfold ecogaz_write
    rw [hkeys, List.mergeSort_eq_self (window_keys_sorted t 6), enum_map_range,
      List.foldl_map]
    exact foldl_update_range_eval0
      (fun i => some ((List.lookup (t + (i : Int)) (ecogaz_daily_d odre t)).getD 0))
      6 regs a
  rw [h0]
  by_cases ha : a < 6
  · rw [if_pos ha, if_pos ha]
    rw [show List.lookup (t + (a : Int)) (ecogaz_daily_d odre t)
        = some ((odre (t + (a : Int))).getD 0) from
      lookup_window (fun d => (odre d).getD 0) 6 t a ha]
    rfl
  · rw [if_neg ha, if_neg ha]

/-- A run whose result is `.ok` performed the write phase on some parsed
dict: either the empty dict (request/decode failure, all caught) or the dict
returned by the parse loop. -/
theorem ecogazRun_ok (fetch : Except Unit (List GzRaw)) (today : Int)
    (regs : Nat → Option Nat) (f : Nat → Option Nat)
    (h : EcogazJob.run fetch today regs = .ok f) :
    ∃ d, f = ecogaz_write d today regs := by
  cases fetch with
  | error e =>
    simp only [EcogazJob.run] at h
    exact ⟨fun _ => none, by injection h with h2; exact h2.symm⟩
  | ok raws =>
    simp only [EcogazJob.run] at h
    cases hp : gz_parse_loop raws (fun _ => none) with
    | error e =>
      rw [hp] at h
      exact absurd h (by simp)
    | ok d =>
      rw [hp] at h
      exact ⟨d, by injection h with h2; exact h2.symm⟩

/-- The parse loop never raises when every record has both expected keys
present: `ValueError` aborts are caught and keep the dict built so far. -/
theorem gz_parse_loop_no_absent (raws : List GzRaw) :
    ∀ d : Int → Option Nat,
      (∀ r ∈ raws, r.gas_day ≠ RawField.absent ∧
        r.indice_de_couleur ≠ RawField.absent) →
      ∃ d2, gz_parse_loop raws d = .ok d2 := by
  induction raws with
  | nil =>
    intro d _
    exact ⟨d, rfl⟩
  | cons r rest ih =>
    intro d h
    obtain ⟨hg, hi⟩ := h r (List.mem_cons_self r rest)
    cases hic : r.indice_de_couleur with
    | absent => exact absurd hic hi
    | unparsable => exact ⟨d, by unfold gz_parse_loop; rw [hic]⟩
    | val v =>
      cases hgc : r.gas_day with
      | absent => exact absurd hgc hg
      | unparsable => exact ⟨d, by unfold gz_parse_loop; rw [hic, hgc]⟩
      | val day =>
        obtain ⟨d2, hd2⟩ := ih (Function.update d day (some v))
          (fun s hs => h s (List.mem_cons_of_mem r hs))
        exact ⟨d2, by unfold gz_parse_loop; rw [hic, hgc]; exact hd2⟩

/-- Pointwise description of `EcowattJob.run`: registers `100..103` receive
the fetched value for `today + (address - 100)` (default 0), all other
registers keep their previous binding. -/
theorem ecowattRun_eval (fetch : Except Unit (List EwRaw))
    (t : Int) (regs : Nat → Option Nat) (a : Nat) :
    EcowattJob.run fetch t regs a
      = if 100 ≤ a ∧ a < 100 + 4
        then some (((ecowatt_fmt_js_d fetch (t + ((a - 100 : Nat) : Int))).getD ⟨0, ""⟩).value)
        else regs a := by
  have hkeys : (ecowatt_daily_d fetch t).map Prod.fst
      = (List.range 4).map fun o : Nat => t + (o : Int) := by
    unfold ecowatt_daily_d
    rw [List.map_map]
    rfl
  have h0 : EcowattJob.run fetch t regs a
      = if 100 ≤ a ∧ a < 100 + 4
        then some (((List.lookup (t + ((a - 100 : Nat) : Int)) (ecowatt_daily_d fetch t)).getD ⟨0, ""⟩).value)
        else regs a := by
    unfold EcowattJob.run
    rw [hkeys, List.mergeSort_eq_self (window_keys_sorted t 4), enum_map_range,
      List.foldl_map]
    exact foldl_update_range_eval
      (fun i => some (((List.lookup (t + (i : Int)) (ecowatt_daily_d fetch t)).getD ⟨0, ""⟩).value))
      100 4 regs a
  rw [h0]
  by_cases ha : 100 ≤ a ∧ a < 100 + 4
  · rw [if_pos ha, if_pos ha]
    rw [show List.lookup (t + ((a - 100 : Nat) : Int)) (ecowatt_daily_d fetch t)
        = some ((ecowatt_fmt_js_d fetch (t + ((a - 100 : Nat) : Int))).getD ⟨0, ""⟩) from
      lookup_window (fun d => (ecowatt_fmt_js_d fetch d).getD ⟨0, ""⟩) 4 t (a - 100) (by omega)]
    rfl
  · rw [if_neg ha, if_neg ha]

/-- Claim C1 — the code at the failing input.  The claim says that before any
job has run every in-block address is unknown, so `read(0, 6)` must return
UNAVAILABLE; but the initial dictionary pre-populates every in-block address,
so the read succeeds (returning `[0, 0, 0, 4, 5, 0]`, where 5 at address 4
even lies outside the 0..4 colour encoding documented in the module
docstring).  The code contradicts its own documentation here: the preset
values at addresses 3 and 4 are leftovers, and the `KeyError → None`
machinery of `get_holding_registers` is dead for in-block addresses. -/
theorem initial_block_read_not_unavailable :
    get_holding_registers v_hold_regs_d_init 0 6 ≠ none := by decide

/-- Claim C2: in the initial table state every in-block address already holds
a numeric value (0 everywhere except 4 at address 3 and 5 at address 4), a
read of addresses 0..5 returns `[0, 0, 0, 4, 5, 0]` rather than UNAVAILABLE,
and the value 5 at address 4 lies outside the documented ecogaz encoding
range 0..4. -/
theorem initial_table_preset_values :
    v_hold_regs_d_init 0 = some 0 ∧ v_hold_regs_d_init 1 = some 0 ∧
    v_hold_regs_d_init 2 = some 0 ∧ v_hold_regs_d_init 3 = some 4 ∧
    v_hold_regs_d_init 4 = some 5 ∧ v_hold_regs_d_init 5 = some 0 ∧
    v_hold_regs_d_init 100 = some 0 ∧ v_hold_regs_d_init 101 = some 0 ∧
    v_hold_regs_d_init 102 = some 0 ∧ v_hold_regs_d_init 103 = some 0 ∧
    get_holding_registers v_hold_regs_d_init 0 6 = some [0, 0, 0, 4, 5, 0] ∧
    (v_hold_regs_d_init 4).getD 0 = 5 ∧ ¬ (v_hold_regs_d_init 4).getD 0 ≤ 4 := by
  decide

/-- Claim C3: `read(start, count)` returns UNAVAILABLE exactly when some
address in `[start, start + count)` is missing from the table (unknown or
outside any defined block — both are represented by absence from the dict);
otherwise it returns the `count` values at `start, start+1, ...` in ascending
address order. -/
theorem read_contract (regs : Nat → Option Nat) (start count : Nat) :
    (get_holding_registers regs start count = none ↔
      ∃ i, i < count ∧ regs (start + i) = none) ∧
    ∀ l, get_holding_registers regs start count = some l →
      l.length = count ∧ ∀ i (hi : i < count), l.get? i = regs (start + i) := by
  constructor
  · rw [get_holding_registers, regs_list_eq_none_iff]
    constructor
    · rintro ⟨b, hb, hbn⟩
      rw [List.mem_range'_1] at hb
      exact ⟨b - start, by omega, by rw [show start + (b - start) = b by omega]; exact hbn⟩
    · rintro ⟨i, hi, hin⟩
      exact ⟨start + i, List.mem_range'_1.mpr ⟨by omega, by omega⟩, hin⟩
  · intro l h
    obtain ⟨hlen, hval⟩ := regs_list_eq_some regs (List.range' start count) l h
    rw [List.length_range'] at hlen
    refine ⟨hlen, ?_⟩
    intro i hi
    have := hval i (by rw [List.length_range']; omega)
    rw [List.get_range'] at this
    rwa [one_mul] at this

/-- Witness for C3: a concrete successful read of two registers. -/
theorem read_contract_witness :
    ([0, 0] : List Nat).length = 2 ∧
      ([0, 0] : List Nat).get? 0 = v_hold_regs_d_init (100 + 0) :=
  ⟨((read_contract v_hold_regs_d_init 100 2).2 [0, 0] (by decide)).1,
    ((read_contract v_hold_regs_d_init 100 2).2 [0, 0] (by decide)).2 0 (by decide)⟩

/-- Counterexample for C4, refuting both halves of the claim's error
handling.  First: a format failure does not always leave an empty result set
— with records `[(gas_day = day 1, colour 2), (gas_day unparsable, colour 3)]`
the second record raises `ValueError`, which is caught, but the entry parsed
before the failure stays in `odre_js_d`, so the run writes 2 (not the
empty-result 0) at offset 1.  Second: a format failure is not always
absorbed — a record missing its `gas_day` key raises `KeyError` at line 127,
which is not in the except tuple at line 130, so the exception propagates
out of `run()` (result `.error ()`) and nothing is written. -/
theorem format_failure_partial_result :
    (EcogazJob.run (.ok [⟨.val 1, .val 2⟩, ⟨.unparsable, .val 3⟩])
        0 v_hold_regs_d_init).map (fun f => f 1) = .ok (some 2) ∧
    (EcogazJob.run (.ok []) 0 v_hold_regs_d_init).map (fun f => f 1)
      = .ok (some 0) ∧
    EcogazJob.run (.ok [⟨.absent, .val 2⟩]) 0 v_hold_regs_d_init = .error () := by
  refine ⟨?_, ?_, rfl⟩
  · show Except.ok (ecogaz_write (Function.update (fun _ => none) 1 (some 2))
        0 v_hold_regs_d_init 1) = Except.ok (some 2)
    exact congrArg Except.ok (by rw [ecogaz_write_eval]; decide)
  · show Except.ok (ecogaz_write (fun _ => none) 0 v_hold_regs_d_init 1)
      = Except.ok (some 0)
    exact congrArg Except.ok (by rw [ecogaz_write_eval]; decide)

/-- Claim C4 as amended: network failures and JSON-decode failures are caught,
and the run proceeds with an empty result set; a `ValueError` format failure
(an unparsable `gas_day` or `indice_de_couleur` value) is also caught, and
the run proceeds with the entries parsed before the failure — possibly
non-empty; in both cases the full window is written from that result dict.
But a record missing an expected key raises `KeyError`, which the 6-day job
does not catch: the exception propagates out of `run()` and no register is
written.  (The 4-day ecowatt job catches `KeyError` too, so all its fetch
failures are absorbed.) -/
theorem fetch_failure_absorbed (today : Int) (regs : Nat → Option Nat) (a : Nat) :
    (EcogazJob.run (.error ()) today regs = EcogazJob.run (.ok []) today regs) ∧
    (EcowattJob.run (.error ()) today regs = EcowattJob.run (.ok []) today regs) ∧
    (∀ raws, (∀ r ∈ raws, r.gas_day ≠ RawField.absent ∧
        r.indice_de_couleur ≠ RawField.absent) →
      ∃ d, gz_parse_loop raws (fun _ => none) = .ok d ∧
        EcogazJob.run (.ok raws) today regs = .ok (ecogaz_write d today regs)) ∧
    (∀ raws, gz_parse_loop raws (fun _ => none) = .error () →
      EcogazJob.run (.ok raws) today regs = .error ()) ∧
    (∀ d, a < 6 → ecogaz_write d today regs a = some ((d (today + (a : Int))).getD 0)) ∧
    (∀ fw, 100 ≤ a → a < 104 → ∃ v, EcowattJob.run fw today regs a = some v) := by
  refine ⟨?_, ?_, ?_, ?_, ?_, ?_⟩
  · rfl
  · funext b
    rw [ecowattRun_eval, ecowattRun_eval]
    rfl
  · intro raws hno
    obtain ⟨d, hd⟩ := gz_parse_loop_no_absent raws (fun _ => none) hno
    exact ⟨d, hd, by simp only [EcogazJob.run]; rw [hd]⟩
  · intro raws hcrash
    simp only [EcogazJob.run]
    rw [hcrash]
  · intro d ha
    rw [ecogaz_write_eval, if_pos ha]
  · intro fw h1 h2
    exact ⟨_, by rw [ecowattRun_eval, if_pos ⟨h1, by omega⟩]⟩

/-- Witness for C4: a concrete fully-keyed record list is parsed and its
window written; ecowatt register 101 is populated after any run. -/
theorem fetch_failure_absorbed_witness :
    (∃ d, gz_parse_loop [⟨.val 1, .val 2⟩] (fun _ => none) = .ok d ∧
      EcogazJob.run (.ok [⟨.val 1, .val 2⟩]) 0 v_hold_regs_d_init
        = .ok (ecogaz_write d 0 v_hold_regs_d_init)) ∧
    (∃ v, EcowattJob.run (.error ()) 0 v_hold_regs_d_init 101 = some v) :=
  ⟨(fetch_failure_absorbed 0 v_hold_regs_d_init 101).2.2.1 [⟨.val 1, .val 2⟩] (by decide),
    (fetch_failure_absorbed 0 v_hold_regs_d_init 101).2.2.2.2.2 (.error ())
      (by decide) (by decide)⟩

/-- Claim C5: with a fetch result holding exactly `{D+1: 2}` (D = today), the
6-day job writes `[0, 2, 0, 0, 0, 0]` to offsets 0..5 — missing days default
to 0.  The second conjunct feeds the same data preceded by a `{D+2: 3}`
record (the feed arrives in descending date order): assignment is still by
ascending calendar date, not by arrival order. -/
theorem six_day_window_values (today : Int) (regs : Nat → Option Nat) :
    (∃ f, EcogazJob.run (.ok [⟨.val (today + 1), .val 2⟩]) today regs = .ok f ∧
      f 0 = some 0 ∧ f 1 = some 2 ∧ f 2 = some 0 ∧
      f 3 = some 0 ∧ f 4 = some 0 ∧ f 5 = some 0) ∧
    (∃ f, EcogazJob.run
        (.ok [⟨.val (today + 2), .val 3⟩, ⟨.val (today + 1), .val 2⟩])
        today regs = .ok f ∧
      f 1 = some 2 ∧ f 2 = some 3) := by
  constructor
  · refine ⟨_, rfl, ?_, ?_, ?_, ?_, ?_, ?_⟩ <;>
      (rw [ecogaz_write_eval]; norm_num [Function.update_apply])
  · refine ⟨_, rfl, ?_, ?_⟩ <;>
      (rw [ecogaz_write_eval]; norm_num [Function.update_apply])

/-- Claim C6: every completed run (for the 6-day job, one whose `run()`
returned rather than raising the uncaught `KeyError`) writes the job's
entire fixed window — all six ecogaz registers 0..5, all four ecowatt
registers 100..103; a run whose fetch yielded nothing (modelled by the
caught failure outcome, whose result dict is empty) writes the all-"no data"
(all-zero) window.  Hence after any completed run no address of the job's
block is unknown. -/
theorem full_window_written (fg : Except Unit (List GzRaw))
    (fw : Except Unit (List EwRaw)) (today : Int) (regs : Nat → Option Nat) (a : Nat) :
    (∀ f, EcogazJob.run fg today regs = .ok f → a < 6 → ∃ v, f a = some v) ∧
    (100 ≤ a → a < 104 → ∃ v, EcowattJob.run fw today regs a = some v) ∧
    (∀ f, EcogazJob.run (.error ()) today regs = .ok f → a < 6 → f a = some 0) ∧
    (100 ≤ a → a < 104 → EcowattJob.run (.error ()) today regs a = some 0) := by
  refine ⟨?_, ?_, ?_, ?_⟩
  · intro f hok ha
    obtain ⟨d, hd⟩ := ecogazRun_ok fg today regs f hok
    exact ⟨_, by rw [hd, ecogaz_write_eval, if_pos ha]⟩
  · intro h1 h2
    exact ⟨_, by rw [ecowattRun_eval, if_pos ⟨h1, by omega⟩]⟩
  · intro f hok ha
    have hf : f = ecogaz_write (fun _ => none) today regs := by
      unfold EcogazJob.run at hok
      exact (Except.ok.injEq _ _ ▸ hok).symm
    rw [hf, ecogaz_write_eval, if_pos ha]
    rfl
  · intro h1 h2
    rw [ecowattRun_eval, if_pos ⟨h1, by omega⟩]
    rfl

/-- Witness for C6: after a fetch-nothing run, registers 2 and 101 hold 0. -/
theorem full_window_written_witness :
    ecogaz_write (fun _ => none) 0 v_hold_regs_d_init 2 = some 0 ∧
      EcowattJob.run (.error ()) 0 v_hold_regs_d_init 101 = some 0 :=
  ⟨(full_window_written (.error ()) (.error ()) 0 v_hold_regs_d_init 2).2.2.1
      (ecogaz_write (fun _ => none) 0 v_hold_regs_d_init) rfl (by decide),
    (full_window_written (.error ()) (.error ()) 0 v_hold_regs_d_init 101).2.2.2
      (by decide) (by decide)⟩

/-- Claim C7: on a scheduler check at time `now`, a job is run exactly when
its `enable` flag is true and `now - _last_run_t > every_s` (strictly
greater, with the `-inf` initial stamp making the comparison true); in
particular a disabled job is never run, whatever the elapsed time. -/
theorem scheduler_due_iff (j : Job) (now : ℚ) :
    (j.runnable now = true ↔ j.enable = true ∧ j.elapsed_gt now) ∧
    (j.enable = false → ∀ eff regs, Job.update j now eff regs = (j, regs)) ∧
    (∀ eff regs, j.runnable now = false → Job.update j now eff regs = (j, regs)) ∧
    (∀ eff regs, j.runnable now = true →
      Job.update j now eff regs = ({ j with _last_run_t := some now }, eff regs)) := by
  have hiff : j.runnable now = true ↔ j.enable = true ∧ j.elapsed_gt now := by
    unfold Job.runnable Job.elapsed_gt
    cases j._last_run_t with
    | none => simp
    | some t => simp
  refine ⟨hiff, ?_, ?_, ?_⟩
  · intro hdis eff regs
    unfold Job.update
    rw [if_neg]
    intro hrun
    rw [(hiff.mp hrun).1] at hdis
    exact Bool.true_eq_false.mp hdis
  · intro eff regs hrun
    unfold Job.update
    rw [if_neg]
    intro hrun2
    rw [hrun2] at hrun
    exact Bool.true_eq_false.mp hrun
  · intro eff regs hrun
    unfold Job.update
    rw [if_pos hrun]

/-- Witness for C7: a disabled job is not run even long after its stamp. -/
theorem scheduler_due_iff_witness :
    Job.update ⟨false, 1, some 0⟩ 1000000 id v_hold_regs_d_init
      = (⟨false, 1, some 0⟩, v_hold_regs_d_init) :=
  (scheduler_due_iff ⟨false, 1, some 0⟩ 1000000).2.1 rfl id v_hold_regs_d_init

/-- Claim C8: a run attempt stamps `_last_run_t = now` whatever the fetch
does (`eff` is arbitrary, covering success and failure), and the job is not
runnable again at any time `now2` with `now2 - now ≤ every_s`: failures never
cause a tighter retry. -/
theorem attempt_stamps_full_interval (j : Job) (now now2 : ℚ)
    (eff : (Nat → Option Nat) → (Nat → Option Nat)) (regs : Nat → Option Nat)
    (hrun : j.runnable now = true) (hle : now2 - now ≤ j.every_s) :
    (Job.update j now eff regs).1._last_run_t = some now ∧
      (Job.update j now eff regs).1.runnable now2 = false := by
  unfold Job.update
  rw [if_pos hrun]
  refine ⟨rfl, ?_⟩
  unfold Job.runnable
  have : ¬ now2 - now > j.every_s := by linarith
  simp [this]

/-- Witness for C8: a job with a 10 s interval run at t = 0 is not runnable
at t = 10. -/
theorem attempt_stamps_full_interval_witness :
    (Job.update ⟨true, 10, none⟩ 0 id v_hold_regs_d_init).1._last_run_t = some 0 ∧
      (Job.update ⟨true, 10, none⟩ 0 id v_hold_regs_d_init).1.runnable 10 = false :=
  attempt_stamps_full_interval ⟨true, 10, none⟩ 0 10 id v_hold_regs_d_init rfl (by norm_num)

/-- Claim C9: each job's write touches only its own block: the ecogaz run
leaves every address ≥ 6 (so in particular 100..103) unchanged, and the
ecowatt run leaves every address outside 100..103 (so in particular 0..5)
unchanged. -/
theorem write_batch_frame (fg : Except Unit (List GzRaw))
    (fw : Except Unit (List EwRaw)) (today : Int) (regs : Nat → Option Nat) (a : Nat) :
    (∀ f, EcogazJob.run fg today regs = .ok f → 6 ≤ a → f a = regs a) ∧
    (a < 100 ∨ 104 ≤ a → EcowattJob.run fw today regs a = regs a) := by
  constructor
  · intro f hok h
    obtain ⟨d, hd⟩ := ecogazRun_ok fg today regs f hok
    rw [hd, ecogaz_write_eval, if_neg (by omega)]
  · intro h
    rw [ecowattRun_eval, if_neg (by omega)]

/-- Witness for C9: an ecogaz run leaves register 100 alone, an ecowatt run
leaves register 3 alone. -/
theorem write_batch_frame_witness :
    ecogaz_write (fun _ => none) 0 v_hold_regs_d_init 100 = v_hold_regs_d_init 100 ∧
      EcowattJob.run (.error ()) 0 v_hold_regs_d_init 3 = v_hold_regs_d_init 3 :=
  ⟨(write_batch_frame (.error ()) (.error ()) 0 v_hold_regs_d_init 100).1
      (ecogaz_write (fun _ => none) 0 v_hold_regs_d_init) rfl (by decide),
    (write_batch_frame (.error ()) (.error ()) 0 v_hold_regs_d_init 3).2 (Or.inl (by decide))⟩
